import Mathlib

/-!
Verification of the Clockify summary-report ETL pipeline
(`Mawave-Marketing/clockify_summary_report`).

The development shallowly embeds the pipeline's algorithmic core:

* the BigQuery `MERGE` issued by `clockify_to_bigquery` in `src/main.py`
  (update / insert / window-scoped delete on key `date, user, project`);
* the generic `MERGE` built by `load_to_bigquery` in `src/utils.py`
  (update / insert, keyed by an arbitrary `merge_keys` list over an
  arbitrary schema);
* the JSON flattener `parse_summary_json` in `src/summary/main.py`;
* the retry loop of `upload_to_gcs` in `src/utils.py`;
* the control flow of the job entry points around configuration checks,
  the empty-result branch, and temporary-table cleanup;
* the user flattener of `fetch_clockify_users` in `src/users/main.py`.

Machine floats that are only ever copied by the merge are modelled as `Int`
cell values; SQL `DATE` values are modelled as `Nat` day numbers (the merge
only compares them with `BETWEEN`).
-/

namespace Clockify

/-! ## The summary-report row and the MERGE of `src/main.py`

Schema from `clockify_to_bigquery` (`src/main.py` lines 161-169):
`user, project, client, time_hours, time_decimal, amount_eur, date`.
The merge key (the `ON` clause, lines 193-195) is `date, user, project`;
`WHEN MATCHED` overwrites `client, time_hours, time_decimal, amount_eur`;
`WHEN NOT MATCHED BY TARGET` inserts; `WHEN NOT MATCHED BY SOURCE AND
T.date BETWEEN start AND end` deletes. -/

structure SRow where
  user : String
  project : String
  client : String
  time_hours : String
  time_decimal : Int
  amount_eur : Int
  date : Nat
deriving DecidableEq, Repr

/-- The `ON` clause of the merge in `src/main.py`:
`T.date = S.date AND T.user = S.user AND T.project = S.project`. -/
def sameKeySummary (s t : SRow) : Bool :=
  s.date == t.date && s.user == t.user && s.project == t.project

/-- The `WHEN MATCHED THEN UPDATE SET` clause: every non-key column of the
target row is overwritten from the source row. -/
def updateSummary (t s : SRow) : SRow :=
  { t with client := s.client, time_hours := s.time_hours,
           time_decimal := s.time_decimal, amount_eur := s.amount_eur }

/-- The fate of one target row under the merge of `src/main.py`: matched
rows are updated from their (first) matching source row, unmatched rows
inside the `BETWEEN` window `[wStart, wEnd]` are deleted, unmatched rows
outside the window are kept. -/
def mergeRowSummary (source : List SRow) (wStart wEnd : Nat) (t : SRow) :
    Option SRow :=
  match source.find? (fun s => sameKeySummary s t) with
  | some s => some (updateSummary t s)
  | none => if wStart ≤ t.date && t.date ≤ wEnd then none else some t

/-- The full `MERGE` statement of `src/main.py` lines 190-207, as a function
on tables-as-lists: matched target rows are updated in place, unmatched
target rows inside `[wStart, wEnd]` are deleted, unmatched target rows
outside the window are kept, and source rows matching no target row are
inserted (appended). -/
def mergeSummary (target source : List SRow) (wStart wEnd : Nat) : List SRow :=
  target.filterMap (mergeRowSummary source wStart wEnd)
  ++ source.filter (fun s => !target.any (fun t => sameKeySummary s t))

/-! ## The generic MERGE of `load_to_bigquery` (`src/utils.py` lines 107-129)

`load_to_bigquery` builds the merge text from a schema (a list of columns)
and a list `merge_keys` of key column names.  We model a row as the list of
its cell values in schema order (`n` columns) and the merge keys as the
corresponding list of column indices.  The generated statement updates every
non-key column of a matched target row from the source row and inserts
source rows that match no target row; it has no delete clause. -/

/-- The generated `ON` clause: all key columns agree. -/
def sameKeyAt (keys : List Nat) (s t : List String) : Bool :=
  keys.all (fun i => s.getD i "" == t.getD i "")

/-- The generated `UPDATE SET` clause applied to a matched pair: column `i`
keeps the target value when `i` is a key column and takes the source value
otherwise.  The result always has the schema's `n` columns. -/
def combineRow (n : Nat) (keys : List Nat) (t s : List String) : List String :=
  (List.range n).map (fun i => if i ∈ keys then t.getD i "" else s.getD i "")

/-- The fate of one target row under the generated merge: a matched row is
updated from its (first) matching source row, an unmatched row is kept. -/
def upsertRow (n : Nat) (keys : List Nat) (source : List (List String))
    (t : List String) : List String :=
  match source.find? (fun s => sameKeyAt keys s t) with
  | some s => combineRow n keys t s
  | none => t

/-- The `MERGE` generated by `load_to_bigquery`: update matched target rows,
keep unmatched target rows (no delete clause), insert source rows matching
no target row. -/
def mergeUpsert (n : Nat) (keys : List Nat) (target source : List (List String)) :
    List (List String) :=
  target.map (upsertRow n keys source)
  ++ source.filter (fun s => !target.any (fun t => sameKeyAt keys s t))

/-! ### Basic facts about the summary merge -/

theorem sameKeySummary_self (t : SRow) : sameKeySummary t t = true := by
  simp [sameKeySummary]

theorem sameKeySummary_updateSummary (x t s : SRow) :
    sameKeySummary x (updateSummary t s) = sameKeySummary x t := rfl

/-- Concrete rows for the `{A,B,C}` / `{B,C,D}` merge scenario of §8 of the
spec.  `B'`/`C'` are the updated source versions of `B`/`C`. -/
def rowA : SRow := ⟨"alice", "p1", "c", "1:00", 1, 10, 3⟩

def rowB : SRow := ⟨"bob", "p1", "c", "2:00", 2, 20, 4⟩

def rowC : SRow := ⟨"carol", "p2", "c", "3:00", 3, 30, 5⟩

def rowB2 : SRow := ⟨"bob", "p1", "c2", "2:30", 25, 25, 4⟩

def rowC2 : SRow := ⟨"carol", "p2", "c2", "3:30", 35, 35, 5⟩

def rowD : SRow := ⟨"dave", "p3", "c", "4:00", 4, 40, 6⟩

/-- C1: in the incremental (window-bounded) merge of `src/main.py`, a target
row whose merge key appears in no source row and whose date lies inside the
covered window `[wStart, wEnd]` is deleted: it does not occur in the merged
table. -/
theorem merge_deletes_stale_rows_in_window
    (target source : List SRow) (wStart wEnd : Nat) (t : SRow)
    (ht : t ∈ target)
    (hunmatched : ∀ s ∈ source, sameKeySummary s t = false)
    (hlo : wStart ≤ t.date) (hhi : t.date ≤ wEnd) :
    t ∉ mergeSummary target source wStart wEnd := by
  intro hmem
  rcases List.mem_append.1 hmem with hL | hR
  · rcases List.mem_filterMap.1 hL with ⟨t', ht', hft'⟩
    rcases hfind : source.find? (fun s => sameKeySummary s t') with _ | s
    · rw [mergeRowSummary, hfind] at hft'
      by_cases hcond : (wStart ≤ t'.date && t'.date ≤ wEnd) = true
      · rw [if_pos hcond] at hft'
        cases hft'
      · rw [if_neg hcond] at hft'
        have heq : t' = t := Option.some.inj hft'
        subst heq
        exact hcond (by simp [hlo, hhi])
    · rw [mergeRowSummary, hfind] at hft'
      have heq : updateSummary t' s = t := Option.some.inj hft'
      have hs : s ∈ source := List.mem_of_find?_eq_some hfind
      have hkey : sameKeySummary s t' = true := by
        simpa using List.find?_some hfind
      have : sameKeySummary s t = true := by
        rw [← heq, sameKeySummary_updateSummary]
        exact hkey
      rw [hunmatched s hs] at this
      exact Bool.noConfusion this
  · have hsrc : t ∈ source := (List.mem_filter.1 hR).1
    have := hunmatched t hsrc
    rw [sameKeySummary_self] at this
    exact Bool.noConfusion this

/-- C1 witness: the concrete §8 scenario.  Target `{A,B,C}`, source
`{B',C',D}`, window `[0,10]` containing `A.date = 3`: `A` is removed (via
the theorem) and the merged table is exactly `{B'(updated), C'(updated),
D(inserted)}`. -/
theorem merge_deletes_stale_rows_in_window_witness :
    rowA ∉ mergeSummary [rowA, rowB, rowC] [rowB2, rowC2, rowD] 0 10 ∧
    mergeSummary [rowA, rowB, rowC] [rowB2, rowC2, rowD] 0 10
      = [rowB2, rowC2, rowD] :=
  ⟨merge_deletes_stale_rows_in_window [rowA, rowB, rowC] [rowB2, rowC2, rowD]
      0 10 rowA (by decide) (by decide) (by decide) (by decide),
   by decide⟩

/-- C5: the incremental merge never deletes a target row whose date lies
outside the covered window, even when its merge key is absent from the
source batch: such a row is still present, unchanged, in the merged table. -/
theorem merge_keeps_rows_outside_window
    (target source : List SRow) (wStart wEnd : Nat) (t : SRow)
    (ht : t ∈ target)
    (hunmatched : ∀ s ∈ source, sameKeySummary s t = false)
    (hout : ¬(wStart ≤ t.date ∧ t.date ≤ wEnd)) :
    t ∈ mergeSummary target source wStart wEnd := by
  refine List.mem_append.2 (Or.inl ?_)
  refine List.mem_filterMap.2 ⟨t, ht, ?_⟩
  have hfind : source.find? (fun s => sameKeySummary s t) = none := by
    rw [List.find?_eq_none]
    intro s hs
    simp [hunmatched s hs]
  rw [mergeRowSummary, hfind]
  have hcond : (wStart ≤ t.date && t.date ≤ wEnd) = false := by
    rcases Nat.lt_or_ge t.date wStart with hlt | hge
    · simp [Nat.not_le.2 hlt]
    · have : ¬ t.date ≤ wEnd := fun hle => hout ⟨hge, hle⟩
      simp [this]
  rw [if_neg (by simp [hcond])]

/-- C5 witness: a target row dated outside the window (`rowD.date = 6`,
window `[0,5]`) with a key absent from the source survives the merge. -/
theorem merge_keeps_rows_outside_window_witness :
    rowD ∈ mergeSummary [rowA, rowD] [rowA] 0 5 :=
  merge_keeps_rows_outside_window [rowA, rowD] [rowA] 0 5 rowD
    (by decide) (by decide) (by decide)

/-! ## General list lemmas used by the merge development -/

theorem all_congr_mem {α : Type} {l : List α} {p q : α → Bool}
    (h : ∀ a ∈ l, p a = q a) : l.all p = l.all q := by
  induction l with
  | nil => rfl
  | cons a l ih =>
    simp only [List.all_cons]
    rw [h a (List.mem_cons_self a l), ih (fun x hx => h x (List.mem_cons_of_mem a hx))]

theorem find?_congr_mem {α : Type} {l : List α} {p q : α → Bool}
    (h : ∀ a ∈ l, p a = q a) : l.find? p = l.find? q := by
  induction l with
  | nil => rfl
  | cons a l ih =>
    rcases hq : q a with _ | _
    · rw [List.find?_cons_of_neg _ (by simp [h a (List.mem_cons_self a l), hq]),
        List.find?_cons_of_neg _ (by simp [hq]),
        ih (fun x hx => h x (List.mem_cons_of_mem a hx))]
    · rw [List.find?_cons_of_pos _ (by simp [h a (List.mem_cons_self a l), hq]),
        List.find?_cons_of_pos _ hq]

theorem filterMap_some_of_mem {α : Type} {l : List α} {f : α → Option α}
    (h : ∀ x ∈ l, f x = some x) : l.filterMap f = l := by
  induction l with
  | nil => rfl
  | cons a l ih =>
    rw [List.filterMap_cons, h a (List.mem_cons_self a l),
      ih (fun x hx => h x (List.mem_cons_of_mem a hx))]

/-! ## Cell-level lemmas about `combineRow` -/

theorem length_combineRow (n : Nat) (keys : List Nat) (t s : List String) :
    (combineRow n keys t s).length = n := by
  simp [combineRow]

theorem getD_range_map (n i : Nat) (f : Nat → String) (hi : i < n) :
    ((List.range n).map f).getD i "" = f i := by
  rw [List.getD_eq_getElem?_getD]
  simp [List.getElem?_map, List.getElem?_range hi]

theorem getD_combineRow (n : Nat) (keys : List Nat) (t s : List String)
    (i : Nat) (hi : i < n) :
    (combineRow n keys t s).getD i ""
      = if i ∈ keys then t.getD i "" else s.getD i "" :=
  getD_range_map n i _ hi

theorem getD_of_length_le {l : List String} {i : Nat} (h : l.length ≤ i) :
    l.getD i "" = "" :=
  List.getD_eq_default l "" h

theorem sameKeyAt_combineRow (n : Nat) (keys : List Nat) (x t s : List String)
    (ht : t.length = n) :
    sameKeyAt keys x (combineRow n keys t s) = sameKeyAt keys x t := by
  unfold sameKeyAt
  refine all_congr_mem (fun i hik => ?_)
  rcases Nat.lt_or_ge i n with hi | hi
  · rw [getD_combineRow n keys t s i hi, if_pos hik]
  · rw [show (combineRow n keys t s).getD i "" = "" from
        getD_of_length_le (by rw [length_combineRow]; exact hi),
      show t.getD i "" = "" from getD_of_length_le (by rw [ht]; exact hi)]

theorem combineRow_combineRow (n : Nat) (keys : List Nat) (t s : List String) :
    combineRow n keys (combineRow n keys t s) s = combineRow n keys t s := by
  unfold combineRow
  refine List.map_congr_left (fun i hi => ?_)
  have hi2 : i < n := List.mem_range.1 hi
  by_cases hik : i ∈ keys
  · rw [if_pos hik, if_pos hik, getD_range_map n i _ hi2, if_pos hik]
  · rw [if_neg hik, if_neg hik]

theorem combineRow_self (n : Nat) (keys : List Nat) (s : List String)
    (hs : s.length = n) :
    combineRow n keys s s = s := by
  have h1 : combineRow n keys s s = (List.range n).map (fun i => s.getD i "") := by
    unfold combineRow
    exact List.map_congr_left (fun i _ => by by_cases hik : i ∈ keys <;> simp [hik])
  rw [h1]
  apply List.ext_get?
  intro i
  simp only [List.get?_eq_getElem?, List.getElem?_map]
  rcases Nat.lt_or_ge i n with hi | hi
  · have hil : i < s.length := by omega
    rw [List.getElem?_range hi, List.getElem?_eq_getElem hil]
    simp [List.getD_eq_getElem?_getD, List.getElem?_eq_getElem hil]
  · rw [List.getElem?_eq_none (l := List.range n) (by simpa using hi),
      List.getElem?_eq_none (by omega)]
    rfl

theorem sameKeyAt_self (keys : List Nat) (s : List String) :
    sameKeyAt keys s s = true := by
  simp [sameKeyAt]

theorem find?_self_of_pairwise {keys : List Nat} {source : List (List String)}
    (hdist : source.Pairwise (fun a b => sameKeyAt keys a b = false))
    {b : List String} (hb : b ∈ source) :
    source.find? (fun s => sameKeyAt keys s b) = some b := by
  induction source with
  | nil => cases hb
  | cons a l ih =>
    rcases List.pairwise_cons.1 hdist with ⟨ha, hl⟩
    rcases List.mem_cons.1 hb with rfl | hbl
    · exact List.find?_cons_of_pos _ (sameKeyAt_self keys b)
    · rw [List.find?_cons_of_neg _ (by simp [ha b hbl]), ih hl hbl]

/-! ## Idempotence of the generic merge of `load_to_bigquery` -/

theorem sameKeyAt_upsertRow (n : Nat) (keys : List Nat)
    (source : List (List String)) (x t : List String) (ht : t.length = n) :
    sameKeyAt keys x (upsertRow n keys source t) = sameKeyAt keys x t := by
  unfold upsertRow
  rcases hfind : source.find? (fun s => sameKeyAt keys s t) with _ | s
  · rfl
  · exact sameKeyAt_combineRow n keys x t s ht

theorem upsertRow_idem (n : Nat) (keys : List Nat)
    (source : List (List String)) (t : List String) (ht : t.length = n) :
    upsertRow n keys source (upsertRow n keys source t)
      = upsertRow n keys source t := by
  have hcong : source.find? (fun s => sameKeyAt keys s (upsertRow n keys source t))
      = source.find? (fun s => sameKeyAt keys s t) :=
    find?_congr_mem (fun s _ => sameKeyAt_upsertRow n keys source s t ht)
  rcases hfind : source.find? (fun s => sameKeyAt keys s t) with _ | s
  · conv_lhs => rw [upsertRow]
    rw [hcong, hfind]
  · have h1 : upsertRow n keys source t = combineRow n keys t s := by
      rw [upsertRow, hfind]
    conv_lhs => rw [upsertRow]
    rw [hcong, hfind]
    show combineRow n keys (upsertRow n keys source t) s = upsertRow n keys source t
    rw [h1, combineRow_combineRow]

theorem upsertRow_mem_source {n : Nat} {keys : List Nat}
    {source : List (List String)}
    (hdist : source.Pairwise (fun a b => sameKeyAt keys a b = false))
    (hslen : ∀ s ∈ source, s.length = n)
    {b : List String} (hb : b ∈ source) :
    upsertRow n keys source b = b := by
  rw [upsertRow, find?_self_of_pairwise hdist hb]
  exact combineRow_self n keys b (hslen b hb)

theorem mergeUpsert_idem (n : Nat) (keys : List Nat)
    (target source : List (List String))
    (hdist : source.Pairwise (fun a b => sameKeyAt keys a b = false))
    (hslen : ∀ s ∈ source, s.length = n)
    (htlen : ∀ t ∈ target, t.length = n) :
    mergeUpsert n keys (mergeUpsert n keys target source) source
      = mergeUpsert n keys target source := by
  have hmapA : (target.map (upsertRow n keys source)).map (upsertRow n keys source)
      = target.map (upsertRow n keys source) := by
    rw [List.map_map]
    exact List.map_congr_left (fun t ht => upsertRow_idem n keys source t (htlen t ht))
  have hmapB :
      (source.filter (fun s => !target.any (fun t => sameKeyAt keys s t))).map
        (upsertRow n keys source)
      = source.filter (fun s => !target.any (fun t => sameKeyAt keys s t)) := by
    have hcg := List.map_congr_left
      (f := upsertRow n keys source) (g := id)
      (l := source.filter (fun s => !target.any (fun t => sameKeyAt keys s t)))
      (fun b hb => upsertRow_mem_source hdist hslen (List.mem_of_mem_filter hb))
    rw [hcg, List.map_id]
  have hkeyA : ∀ t ∈ target, ∀ x,
      sameKeyAt keys x (upsertRow n keys source t) = sameKeyAt keys x t :=
    fun t ht x => sameKeyAt_upsertRow n keys source x t (htlen t ht)
  have hfilter : source.filter (fun s =>
      !(target.map (upsertRow n keys source)
        ++ source.filter (fun u => !target.any (fun t => sameKeyAt keys u t))).any
          (fun t => sameKeyAt keys s t)) = [] := by
    rw [List.filter_eq_nil_iff]
    intro s hs
    simp only [Bool.not_eq_true, Bool.not_eq_true', List.any_append]
    rcases htar : target.any (fun t => sameKeyAt keys s t) with _ | _
    · have hsB : s ∈ source.filter (fun u => !target.any (fun t => sameKeyAt keys u t)) :=
        List.mem_filter.2 ⟨hs, by rw [htar]; rfl⟩
      have h2 : (source.filter (fun u => !target.any (fun t => sameKeyAt keys u t))).any
          (fun t => sameKeyAt keys s t) = true :=
        List.any_eq_true.2 ⟨s, hsB, sameKeyAt_self keys s⟩
      simp [h2]
    · rcases List.any_eq_true.1 htar with ⟨t, ht, hst⟩
      have h1 : (target.map (upsertRow n keys source)).any
          (fun u => sameKeyAt keys s u) = true := by
        refine List.any_eq_true.2 ⟨upsertRow n keys source t, List.mem_map_of_mem _ ht, ?_⟩
        rw [hkeyA t ht s]
        exact hst
      simp [h1]
  calc mergeUpsert n keys (mergeUpsert n keys target source) source
      = (target.map (upsertRow n keys source)
          ++ source.filter (fun s => !target.any (fun t => sameKeyAt keys s t))).map
            (upsertRow n keys source)
        ++ source.filter (fun s =>
            !(target.map (upsertRow n keys source)
              ++ source.filter (fun u => !target.any (fun t => sameKeyAt keys u t))).any
                (fun t => sameKeyAt keys s t)) := rfl
    _ = mergeUpsert n keys target source := by
        rw [List.map_append, hmapA, hmapB, hfilter, List.append_nil]
        rfl

/-! ## Idempotence of the incremental merge of `src/main.py` -/

theorem updateSummary_updateSummary (t s : SRow) :
    updateSummary (updateSummary t s) s = updateSummary t s := rfl

theorem updateSummary_self (s : SRow) : updateSummary s s = s := rfl

theorem find?_self_of_pairwise_summary {source : List SRow}
    (hdist : source.Pairwise (fun a b => sameKeySummary a b = false))
    {b : SRow} (hb : b ∈ source) :
    source.find? (fun s => sameKeySummary s b) = some b := by
  induction source with
  | nil => cases hb
  | cons a l ih =>
    rcases List.pairwise_cons.1 hdist with ⟨ha, hl⟩
    rcases List.mem_cons.1 hb with rfl | hbl
    · exact List.find?_cons_of_pos _ (sameKeySummary_self b)
    · rw [List.find?_cons_of_neg _ (by simp [ha b hbl]), ih hl hbl]

/-- A row produced by the update/keep/delete pass is a fixed point of that
pass: re-merging maps it to itself. -/
theorem mergeRowSummary_output (source : List SRow) (wStart wEnd : Nat)
    (t r : SRow) (hr : mergeRowSummary source wStart wEnd t = some r) :
    mergeRowSummary source wStart wEnd r = some r := by
  rcases hfind : source.find? (fun s => sameKeySummary s t) with _ | s
  · rw [mergeRowSummary, hfind] at hr
    by_cases hcond : (wStart ≤ t.date && t.date ≤ wEnd) = true
    · rw [if_pos hcond] at hr
      cases hr
    · rw [if_neg hcond] at hr
      have ht : t = r := Option.some.inj hr
      subst ht
      rw [mergeRowSummary, hfind, if_neg hcond]
  · rw [mergeRowSummary, hfind] at hr
    have hru : r = updateSummary t s := (Option.some.inj hr).symm
    have hcong : source.find? (fun u => sameKeySummary u r)
        = source.find? (fun u => sameKeySummary u t) := by
      subst hru
      exact find?_congr_mem (fun x _ => sameKeySummary_updateSummary x t s)
    rw [mergeRowSummary, hcong, hfind]
    subst hru
    show some (updateSummary (updateSummary t s) s) = some (updateSummary t s)
    rw [updateSummary_updateSummary]

theorem mergeRowSummary_mem_source {source : List SRow} (wStart wEnd : Nat)
    (hdist : source.Pairwise (fun a b => sameKeySummary a b = false))
    {b : SRow} (hb : b ∈ source) :
    mergeRowSummary source wStart wEnd b = some b := by
  rw [mergeRowSummary, find?_self_of_pairwise_summary hdist hb]
  show some (updateSummary b b) = some b
  rw [updateSummary_self]

theorem mergeSummary_idem (target source : List SRow) (wStart wEnd : Nat)
    (hdist : source.Pairwise (fun a b => sameKeySummary a b = false)) :
    mergeSummary (mergeSummary target source wStart wEnd) source wStart wEnd
      = mergeSummary target source wStart wEnd := by
  have hA : ∀ r ∈ target.filterMap (mergeRowSummary source wStart wEnd),
      mergeRowSummary source wStart wEnd r = some r := by
    intro r hr
    rcases List.mem_filterMap.1 hr with ⟨t, _, hft⟩
    exact mergeRowSummary_output source wStart wEnd t r hft
  have hB : ∀ b ∈ source.filter (fun s => !target.any (fun t => sameKeySummary s t)),
      mergeRowSummary source wStart wEnd b = some b := fun b hb =>
    mergeRowSummary_mem_source wStart wEnd hdist (List.mem_of_mem_filter hb)
  have hmap : (target.filterMap (mergeRowSummary source wStart wEnd)
        ++ source.filter (fun s => !target.any (fun t => sameKeySummary s t))).filterMap
          (mergeRowSummary source wStart wEnd)
      = target.filterMap (mergeRowSummary source wStart wEnd)
        ++ source.filter (fun s => !target.any (fun t => sameKeySummary s t)) :=
    filterMap_some_of_mem (fun r hr => by
      rcases List.mem_append.1 hr with hrA | hrB
      · exact hA r hrA
      · exact hB r hrB)
  have hfilter : source.filter (fun s =>
      !(target.filterMap (mergeRowSummary source wStart wEnd)
        ++ source.filter (fun u => !target.any (fun t => sameKeySummary u t))).any
          (fun t => sameKeySummary s t)) = [] := by
    rw [List.filter_eq_nil_iff]
    intro s hs
    simp only [Bool.not_eq_true, Bool.not_eq_true', List.any_append]
    rcases htar : target.any (fun t => sameKeySummary s t) with _ | _
    · have hsB : s ∈ source.filter (fun u => !target.any (fun t => sameKeySummary u t)) :=
        List.mem_filter.2 ⟨hs, by rw [htar]; rfl⟩
      have h2 : (source.filter (fun u => !target.any (fun t => sameKeySummary u t))).any
          (fun t => sameKeySummary s t) = true :=
        List.any_eq_true.2 ⟨s, hsB, sameKeySummary_self s⟩
      simp [h2]
    · rcases List.any_eq_true.1 htar with ⟨t, ht, hst⟩
      rcases hfind : source.find? (fun u => sameKeySummary u t) with _ | s₀
      · exact absurd (List.find?_eq_none.1 hfind s hs) (by simp [hst])
      · have hu : updateSummary t s₀
            ∈ target.filterMap (mergeRowSummary source wStart wEnd) :=
          List.mem_filterMap.2 ⟨t, ht, by rw [mergeRowSummary, hfind]⟩
        have h1 : (target.filterMap (mergeRowSummary source wStart wEnd)).any
            (fun u => sameKeySummary s u) = true := by
          refine List.any_eq_true.2 ⟨updateSummary t s₀, hu, ?_⟩
          rw [sameKeySummary_updateSummary]
          exact hst
        simp [h1]
  calc mergeSummary (mergeSummary target source wStart wEnd) source wStart wEnd
      = (target.filterMap (mergeRowSummary source wStart wEnd)
          ++ source.filter (fun s => !target.any (fun t => sameKeySummary s t))).filterMap
            (mergeRowSummary source wStart wEnd)
        ++ source.filter (fun s =>
            !(target.filterMap (mergeRowSummary source wStart wEnd)
              ++ source.filter (fun u => !target.any (fun t => sameKeySummary u t))).any
                (fun t => sameKeySummary s t)) := rfl
    _ = mergeSummary target source wStart wEnd := by
        rw [hmap, hfilter, List.append_nil]
        rfl

/-- C2: the upsert merge is idempotent.  First conjunct: the generic merge
generated by `load_to_bigquery` (`src/utils.py`), for any schema width `n`,
key column set, and source batch with pairwise-distinct merge keys whose
rows conform to the schema.  Second conjunct: the incremental merge of
`src/main.py` (update / insert / window-scoped delete).  In both cases
running the merge of the same batch twice leaves the permanent table exactly
as after running it once. -/
theorem merge_idempotent :
    (∀ (n : Nat) (keys : List Nat) (target source : List (List String)),
      source.Pairwise (fun a b => sameKeyAt keys a b = false) →
      (∀ s ∈ source, s.length = n) →
      (∀ t ∈ target, t.length = n) →
      mergeUpsert n keys (mergeUpsert n keys target source) source
        = mergeUpsert n keys target source) ∧
    (∀ (target source : List SRow) (wStart wEnd : Nat),
      source.Pairwise (fun a b => sameKeySummary a b = false) →
      mergeSummary (mergeSummary target source wStart wEnd) source wStart wEnd
        = mergeSummary target source wStart wEnd) :=
  ⟨mergeUpsert_idem, fun target source wStart wEnd hdist =>
    mergeSummary_idem target source wStart wEnd hdist⟩

/-- C2 witness: idempotence instantiated on concrete batches with distinct
merge keys — a 3-column generic merge keyed on column 0, and the concrete
`{A,B,C}` / `{B(updated),C(updated),D}` summary scenario. -/
theorem merge_idempotent_witness :
    (mergeUpsert 3 [0]
        (mergeUpsert 3 [0] [["a", "x", "1"]] [["a", "y", "2"], ["b", "z", "3"]])
        [["a", "y", "2"], ["b", "z", "3"]]
      = mergeUpsert 3 [0] [["a", "x", "1"]] [["a", "y", "2"], ["b", "z", "3"]]) ∧
    (mergeSummary
        (mergeSummary [rowA, rowB, rowC] [rowB2, rowC2, rowD] 0 10)
        [rowB2, rowC2, rowD] 0 10
      = mergeSummary [rowA, rowB, rowC] [rowB2, rowC2, rowD] 0 10) :=
  ⟨merge_idempotent.1 3 [0] [["a", "x", "1"]] [["a", "y", "2"], ["b", "z", "3"]]
      (by decide) (by decide) (by decide),
   merge_idempotent.2 [rowA, rowB, rowC] [rowB2, rowC2, rowD] 0 10 (by decide)⟩

/-! ## The JSON flattener `parse_summary_json` (`src/summary/main.py` lines 24-95)

The summary report is requested with groups `USER, PROJECT, TAG`, so the
payload's `groupOne` array holds user nodes whose `children` are project
nodes whose `children` are tag nodes.  `parse_summary_json` walks exactly
these three levels with `dict.get` accesses; we mirror each level as a
structure of optional fields.  The float division `duration / 3600000` is
modelled over `Rat`. -/

structure TagGroup where
  _id : Option String
  name : Option String
  duration : Option Nat
  amount : Option Int
deriving DecidableEq, Repr

structure ProjectGroup where
  _id : Option String
  name : Option String
  clientId : Option String
  clientName : Option String
  duration : Option Nat
  amount : Option Int
  children : List TagGroup
deriving DecidableEq, Repr

structure UserGroup where
  _id : Option String
  name : Option String
  children : List ProjectGroup
deriving DecidableEq, Repr

structure SummaryData where
  groupOne : List UserGroup
deriving DecidableEq, Repr

/-- One flattened record as appended by `parse_summary_json`. -/
structure SummaryRecord where
  user_id : Option String
  user : String
  project_id : Option String
  project : String
  client_id : Option String
  client : String
  tag_id : Option String
  tags : String
  duration_ms : Nat
  time_decimal : Rat
  amount_eur : Int
  date : Nat
deriving DecidableEq, Repr

/-- Direct translation of `parse_summary_json`: for every user group and
every project child, either one record per tag child, or — when the project
has no tag children — a single record with `tag_id = None` and `tags = ''`.
A user group with an empty `children` list contributes no record at all
(the project loop body never runs). -/
def parse_summary_json (data : SummaryData) (date : Nat) : List SummaryRecord :=
  data.groupOne.flatMap (fun user_group =>
    user_group.children.flatMap (fun project_group =>
      if project_group.children.isEmpty then
        let duration := project_group.duration.getD 0
        [{ user_id := user_group._id, user := user_group.name.getD "",
           project_id := project_group._id, project := project_group.name.getD "",
           client_id := project_group.clientId, client := project_group.clientName.getD "",
           tag_id := none, tags := "",
           duration_ms := duration,
           time_decimal := if duration ≠ 0 then (duration : Rat) / 3600000 else 0,
           amount_eur := project_group.amount.getD 0, date := date }]
      else
        project_group.children.map (fun tag_group =>
          let duration := tag_group.duration.getD 0
          { user_id := user_group._id, user := user_group.name.getD "",
            project_id := project_group._id, project := project_group.name.getD "",
            client_id := project_group.clientId, client := project_group.clientName.getD "",
            tag_id := tag_group._id, tags := tag_group.name.getD "",
            duration_ms := duration,
            time_decimal := if duration ≠ 0 then (duration : Rat) / 3600000 else 0,
            amount_eur := tag_group.amount.getD 0, date := date })))

/-- The row count `parse_summary_json` actually produces: per user, one row
per tag node plus one row per tag-less project node; a childless user node
contributes nothing. -/
def dataRowCount (d : SummaryData) : Nat :=
  (d.groupOne.map (fun u => (u.children.map (fun p =>
    if p.children.isEmpty then 1 else p.children.length)).sum)).sum

/-- Modelled from the spec: the row count claimed in §4.2/§8 — one row per
leaf node, and one row per childless branch node at any level, so a
childless user node is also claimed to contribute one row. -/
def specLeafRowCount (d : SummaryData) : Nat :=
  (d.groupOne.map (fun u =>
    if u.children.isEmpty then 1
    else (u.children.map (fun p =>
      if p.children.isEmpty then 1 else p.children.length)).sum)).sum

/-- C3 counterexample: a payload whose single user group has no project
children.  The claim demands one row for the childless branch (its leaf
count is 1), but `parse_summary_json` emits zero rows. -/
theorem parse_summary_childless_user_cex :
    (parse_summary_json ⟨[⟨some "u1", some "Alice", []⟩]⟩ 0).length = 0 ∧
    specLeafRowCount ⟨[⟨some "u1", some "Alice", []⟩]⟩ = 1 := by
  constructor
  · rfl
  · rfl

/-- C3 (amended): flattening emits exactly one row per tag node plus one
row per tag-less project node — a project branch with no tag children still
yields one row with `tag_id` null and `tags` empty — while a user node with
no project children yields zero rows; the total row count is
`dataRowCount`. -/
theorem parse_summary_fanout :
    (∀ (data : SummaryData) (date : Nat),
      (parse_summary_json data date).length = dataRowCount data) ∧
    (∀ (data : SummaryData) (date : Nat) (u : UserGroup) (p : ProjectGroup),
      u ∈ data.groupOne → p ∈ u.children → p.children.isEmpty = true →
      ({ user_id := u._id, user := u.name.getD "",
         project_id := p._id, project := p.name.getD "",
         client_id := p.clientId, client := p.clientName.getD "",
         tag_id := none, tags := "",
         duration_ms := p.duration.getD 0,
         time_decimal := if p.duration.getD 0 ≠ 0
           then (p.duration.getD 0 : Rat) / 3600000 else 0,
         amount_eur := p.amount.getD 0, date := date } : SummaryRecord)
        ∈ parse_summary_json data date) := by
  constructor
  · intro data date
    unfold parse_summary_json dataRowCount
    rw [List.length_flatMap]
    congr 1
    refine List.map_congr_left (fun u _ => ?_)
    simp only [Function.comp_apply]
    rw [List.length_flatMap]
    congr 1
    refine List.map_congr_left (fun p _ => ?_)
    simp only [Function.comp_apply]
    by_cases hp : p.children.isEmpty <;> simp [hp]
  · intro data date u p hu hp hpc
    unfold parse_summary_json
    refine List.mem_flatMap.2 ⟨u, hu, ?_⟩
    refine List.mem_flatMap.2 ⟨p, hp, ?_⟩
    rw [if_pos hpc]
    exact List.mem_singleton.2 rfl

/-- C3 witness: the second (hypothesis-bearing) conjunct applied to a
concrete payload with one tag-less project branch. -/
theorem parse_summary_fanout_witness :
    ({ user_id := some "u1", user := "Alice",
       project_id := some "p1", project := "Website",
       client_id := some "c1", client := "Acme",
       tag_id := none, tags := "",
       duration_ms := 7200000, time_decimal := (7200000 : Rat) / 3600000,
       amount_eur := 100,
       date := 42 } : SummaryRecord)
      ∈ parse_summary_json
          ⟨[⟨some "u1", some "Alice",
             [⟨some "p1", some "Website", some "c1", some "Acme",
               some 7200000, some 100, []⟩]⟩]⟩ 42 := by
  have h := parse_summary_fanout.2
    ⟨[⟨some "u1", some "Alice",
       [⟨some "p1", some "Website", some "c1", some "Acme",
         some 7200000, some 100, []⟩]⟩]⟩ 42
    ⟨some "u1", some "Alice",
     [⟨some "p1", some "Website", some "c1", some "Acme",
       some 7200000, some 100, []⟩]⟩
    ⟨some "p1", some "Website", some "c1", some "Acme",
     some 7200000, some 100, []⟩
    (by decide) (by decide) (by decide)
  simpa using h

/-! ## `process_batch` and the absence of deduplication
(`src/summary/main.py` lines 133-175)

`process_batch` turns the accumulated records into a DataFrame, coerces the
numeric columns (already numeric in this typed model), uploads the file and
calls `load_to_bigquery` with merge keys
`user_id, project_id, client, tags, date`.  No step drops, reorders or
deduplicates rows. -/

/-- The merge key tuple of a summary record (`src/summary/main.py` line
170). -/
def batchMergeKey (r : SummaryRecord) :
    Option String × Option String × String × String × Nat :=
  (r.user_id, r.project_id, r.client, r.tags, r.date)

/-- The row-level effect of `process_batch` on the batch it loads
(`src/summary/main.py` lines 139-149): the records are loaded in order,
unchanged — in particular no deduplication by merge key is performed. -/
def process_batch_rows (batch : List SummaryRecord) : List SummaryRecord :=
  batch

/-- Modelled from the spec: the deduplication §4.5 mandates before load —
keep only the last occurrence of each merge key, preserving the order of
the survivors (what `drop_duplicates(keep='last')` would do). -/
def dedupByKeyLast (batch : List SummaryRecord) : List SummaryRecord :=
  batch.foldr (fun r acc =>
    if acc.any (fun x => batchMergeKey x == batchMergeKey r) then acc
    else r :: acc) []

/-- Two records sharing the same merge key but different measures. -/
def dupRec1 : SummaryRecord :=
  ⟨some "u1", "Alice", some "p1", "Website", some "c1", "Acme",
   some "t1", "dev", 3600000, 1, 50, 7⟩

def dupRec2 : SummaryRecord :=
  ⟨some "u1", "Alice", some "p1", "Website", some "c1", "Acme",
   some "t1", "dev", 7200000, 2, 100, 7⟩

/-- C4 counterexample: a batch with two records of equal merge key.  The
claim says the batch handed to the merge is deduplicated (keep last), i.e.
equals `[dupRec2]`; `process_batch` actually loads both rows, so the source
table contains the key twice. -/
theorem process_batch_no_dedup_cex :
    process_batch_rows [dupRec1, dupRec2] ≠ dedupByKeyLast [dupRec1, dupRec2] ∧
    ((process_batch_rows [dupRec1, dupRec2]).filter
      (fun r => batchMergeKey r == batchMergeKey dupRec1)).length = 2 := by
  constructor
  · decide
  · decide

/-- C4 (amended): `process_batch` performs no deduplication — the batch is
loaded as accumulated, so every merge key occurs in the loaded source table
exactly as often as in the batch, and a batch with duplicate merge keys
reaches the merge with the duplicates intact.  (The dedup-by-key-keep-last
step §4.5 mandates is not implemented.) -/
theorem process_batch_preserves_duplicates :
    ∀ (batch : List SummaryRecord)
      (k : Option String × Option String × String × String × Nat),
      ((process_batch_rows batch).filter (fun r => batchMergeKey r == k)).length
        = (batch.filter (fun r => batchMergeKey r == k)).length ∧
      process_batch_rows batch = batch :=
  fun _ _ => ⟨rfl, rfl⟩

/-! ## The retry loop of `upload_to_gcs` (`src/utils.py` lines 58-76)

`max_retries = 3`, `retry_delay = 2`.  The loop body tries the upload; on
exception it retries (after sleeping `retry_delay * 2 ** attempt` seconds)
only when `attempt < max_retries - 1` and the error message contains the
substring `SSL` or `Connection`; otherwise it re-raises. -/

/-- Substring test over character lists (used to model the Python
`pat in error_msg` membership test). -/
def containsSubAux (pat : List Char) : List Char → Bool
  | [] => pat.isEmpty
  | c :: rest => pat.isPrefixOf (c :: rest) || containsSubAux pat rest

/-- Transient-error test of `src/utils.py` line 70: the error message
contains `SSL` or `Connection`. -/
def isTransientError (msg : String) : Bool :=
  containsSubAux "SSL".toList msg.toList
    || containsSubAux "Connection".toList msg.toList

/-- The retry loop.  `f i` is the outcome of the i-th
`blob.upload_from_filename` call.  Returns the final outcome, the list of
backoff waits (in seconds) slept, and the number of upload attempts made.
The `fuel` argument only bounds the recursion; the loop itself exits via
the `attempt < 3 - 1` guard, so the fuel-exhausted branch is unreachable
from the entry point `upload_to_gcs_retries`. -/
def uploadLoop (f : Nat → Except String String) :
    Nat → Nat → List Nat → Except String String × List Nat × Nat
  | 0, _, waits => (.error "", waits, 0)
  | fuel + 1, attempt, waits =>
    match f attempt with
    | .ok uri => (.ok uri, waits, attempt + 1)
    | .error e =>
      if attempt < 3 - 1 && isTransientError e then
        uploadLoop f fuel (attempt + 1) (waits ++ [2 * 2 ^ attempt])
      else (.error e, waits, attempt + 1)

/-- Entry point of the retry logic: `for attempt in range(max_retries)`
starting at attempt 0 with no waits performed. -/
def upload_to_gcs_retries (f : Nat → Except String String) :
    Except String String × List Nat × Nat :=
  uploadLoop f 3 0 []

/-- C6 counterexample: with every attempt failing transiently the loop
makes 3 attempts total and sleeps only 2s and 4s — never 8s — before
re-raising, whereas the claim demands waits of 2s, 4s and 8s. -/
theorem upload_retry_cex :
    upload_to_gcs_retries (fun _ => .error "Connection reset by peer")
      = (.error "Connection reset by peer", [2, 4], 3) ∧
    ([2, 4] : List Nat) ≠ [2, 4, 8] := by
  exact ⟨rfl, by decide⟩

/-- C6 (amended): on transient errors the staging upload makes at most 3
attempts in total (2 retries): transient failures of attempts 1 and 2 are
followed by waits of 2s and 4s, and the third failure re-raises with no
further wait; a non-transient error on the first attempt re-raises
immediately with no retry and no wait. -/
theorem upload_retry_behaviour :
    (∀ (f : Nat → Except String String) (e0 e1 e2 : String),
      f 0 = .error e0 → isTransientError e0 = true →
      f 1 = .error e1 → isTransientError e1 = true →
      f 2 = .error e2 →
      upload_to_gcs_retries f = (.error e2, [2, 4], 3)) ∧
    (∀ (f : Nat → Except String String) (e : String),
      f 0 = .error e → isTransientError e = false →
      upload_to_gcs_retries f = (.error e, [], 1)) := by
  constructor
  · intro f e0 e1 e2 h0 ht0 h1 ht1 h2
    unfold upload_to_gcs_retries
    rw [uploadLoop, h0]
    simp only [ht0]
    rw [uploadLoop, h1]
    simp only [ht1]
    rw [uploadLoop, h2]
    norm_num
  · intro f e h0 ht0
    unfold upload_to_gcs_retries
    rw [uploadLoop, h0]
    simp [ht0]

/-- C6 witness: the amended behaviour at two concrete outcome sequences —
all-transient (connection reset) and immediately-fatal (HTTP 403). -/
theorem upload_retry_behaviour_witness :
    upload_to_gcs_retries (fun _ => .error "SSL handshake failed")
        = (.error "SSL handshake failed", [2, 4], 3) ∧
    upload_to_gcs_retries (fun _ => .error "403 Forbidden")
        = (.error "403 Forbidden", [], 1) :=
  ⟨upload_retry_behaviour.1 (fun _ => .error "SSL handshake failed")
      "SSL handshake failed" "SSL handshake failed" "SSL handshake failed"
      rfl rfl rfl rfl rfl,
   upload_retry_behaviour.2 (fun _ => .error "403 Forbidden")
      "403 Forbidden" rfl rfl⟩

/-! ## Empty-result handling (`src/main.py` lines 87-106,
`src/main_clients.py` lines 70-74)

The CSV summary job accumulates one optional data frame per day
(`request_summary_report` returns a file path or `None`) and then raises
`"No data collected"` when the accumulated list is empty.  The clients job
instead returns the success string `"No clients data to process"` when the
fetched table is empty. -/

/-- The day loop of `clockify_to_bigquery`: `all_data` collects the data
frames of the days whose fetch succeeded. -/
def collectDays {α : Type} (fetches : List (Option α)) : List α :=
  fetches.filterMap id

/-- Lines 105-106 of `src/main.py`: an empty `all_data` raises. -/
def clockify_no_data_check {α : Type} (all_data : List α) : Except String Unit :=
  if all_data.isEmpty then .error "No data collected" else .ok ()

/-- Lines 72-74 of `src/main_clients.py`: an empty fetched client table
returns the success string; a non-empty one continues with the rest of the
pipeline (`rest`). -/
def process_clients_result {α : Type} (clients_df : List α)
    (rest : List α → Except String String) : Except String String :=
  if clients_df.isEmpty then .ok "No clients data to process" else rest clients_df

/-- C7 counterexample: when every daily fetch yields nothing, the CSV
summary job raises `"No data collected"` instead of returning a success
result, contradicting the claim that an empty result set is never an
error. -/
theorem no_data_is_error_in_summary_job_cex :
    clockify_no_data_check
        (collectDays ([none, none] : List (Option (List String))))
      = .error "No data collected" := rfl

/-- C7 (amended): the clients job treats an empty result set as success
(returns the nothing-to-process string without running the rest of the
pipeline), but the CSV summary job of `src/main.py` raises
`"No data collected"` whenever every daily fetch yields nothing. -/
theorem no_data_handling :
    (∀ (α : Type) (rest : List α → Except String String),
      process_clients_result ([] : List α) rest
        = .ok "No clients data to process") ∧
    (∀ (α : Type) (fetches : List (Option α)),
      (∀ x ∈ fetches, x = none) →
      clockify_no_data_check (collectDays fetches)
        = .error "No data collected") := by
  constructor
  · intro α rest
    rfl
  · intro α fetches hall
    have hempty : collectDays fetches = [] := by
      unfold collectDays
      rw [List.filterMap_eq_nil_iff]
      intro x hx
      rw [hall x hx]
      rfl
    rw [hempty]
    rfl

/-- C7 witness: both branches at concrete inputs. -/
theorem no_data_handling_witness :
    process_clients_result ([] : List (List String)) (fun _ => .error "boom")
        = .ok "No clients data to process" ∧
    clockify_no_data_check (collectDays ([none] : List (Option Nat)))
        = .error "No data collected" :=
  ⟨no_data_handling.1 (List String) (fun _ => .error "boom"),
   no_data_handling.2 Nat [none] (by simp)⟩

/-! ## Temp-table cleanup (`src/utils.py` lines 78-137,
`src/main.py` lines 152-215)

`load_to_bigquery` (and the inline copy in `clockify_to_bigquery`) runs a
straight-line sequence of warehouse calls with no try/finally: load into
the temp table, check-or-create the main table, run the merge, delete the
temp table, read the row count.  An exception anywhere aborts the rest of
the sequence.  We model the sequence as an action list run by an executor
in which each action either succeeds or raises. -/

inductive BqAct where
  | loadTemp
  | getOrCreateMain
  | runMerge
  | dropTemp
  | countRows
deriving DecidableEq, Repr

structure BqState where
  tempExists : Bool
deriving DecidableEq, Repr

/-- State effect of each successful call: the truncating load creates the
temp table, the delete removes it, the other calls leave it unchanged. -/
def applyAct (st : BqState) : BqAct → BqState
  | .loadTemp => { st with tempExists := true }
  | .dropTemp => { st with tempExists := false }
  | _ => st

/-- Straight-line execution with exceptions: a failing action aborts the
remaining actions immediately (there is no cleanup handler in the code). -/
def runActs (outcome : BqAct → Bool) :
    List BqAct → BqState → Except String Unit × BqState
  | [], st => (.ok (), st)
  | a :: rest, st =>
    if outcome a then runActs outcome rest (applyAct st a)
    else (.error "BigQuery error", st)

/-- The call sequence of `load_to_bigquery` in source order. -/
def load_to_bigquery_acts : List BqAct :=
  [.loadTemp, .getOrCreateMain, .runMerge, .dropTemp, .countRows]

def load_to_bigquery_run (outcome : BqAct → Bool) :
    Except String Unit × BqState :=
  runActs outcome load_to_bigquery_acts ⟨false⟩

/-- C8 counterexample: when the merge query fails after a successful load,
the function raises before reaching `delete_table`, so the run ends on a
failure path with the temporary table still in place — the drop is not
unconditional. -/
theorem temp_table_leak_cex :
    (load_to_bigquery_run (fun a => !(a == .runMerge))).1
        = .error "BigQuery error" ∧
    (load_to_bigquery_run (fun a => !(a == .runMerge))).2.tempExists = true := by
  exact ⟨rfl, rfl⟩

/-- C8 (amended): the temporary table is dropped exactly on the path where
the load, the main-table check/create and the merge all succeed (even if
the final row-count read then fails); if the table check/create or the
merge raises after a successful load, the function propagates the error
before the drop and the temporary table is left in place. -/
theorem temp_table_cleanup :
    (∀ outcome : BqAct → Bool,
      outcome .loadTemp = true → outcome .getOrCreateMain = true →
      outcome .runMerge = true → outcome .dropTemp = true →
      (load_to_bigquery_run outcome).2.tempExists = false) ∧
    (∀ outcome : BqAct → Bool,
      outcome .loadTemp = true →
      (outcome .getOrCreateMain = false ∨
        (outcome .getOrCreateMain = true ∧ outcome .runMerge = false)) →
      (load_to_bigquery_run outcome).1 = .error "BigQuery error" ∧
      (load_to_bigquery_run outcome).2.tempExists = true) := by
  constructor
  · intro outcome h1 h2 h3 h4
    unfold load_to_bigquery_run load_to_bigquery_acts
    rw [runActs, if_pos h1, runActs, if_pos h2, runActs, if_pos h3,
      runActs, if_pos h4]
    rcases h5 : outcome .countRows with _ | _
    · rw [runActs, if_neg (by simp [h5])]
      rfl
    · rw [runActs, if_pos h5]
      rfl
  · intro outcome h1 h2
    unfold load_to_bigquery_run load_to_bigquery_acts
    rcases h2 with h2 | ⟨h2, h3⟩
    · rw [runActs, if_pos h1, runActs, if_neg (by simp [h2])]
      exact ⟨rfl, rfl⟩
    · rw [runActs, if_pos h1, runActs, if_pos h2,
        runActs, if_neg (by simp [h3])]
      exact ⟨rfl, rfl⟩

/-- C8 witness: the all-success path drops the temp table; the
merge-failure path leaves it in place. -/
theorem temp_table_cleanup_witness :
    (load_to_bigquery_run (fun _ => true)).2.tempExists = false ∧
    ((load_to_bigquery_run (fun a => !(a == .runMerge))).1
        = .error "BigQuery error" ∧
      (load_to_bigquery_run (fun a => !(a == .runMerge))).2.tempExists = true) :=
  ⟨temp_table_cleanup.1 (fun _ => true) rfl rfl rfl rfl,
   temp_table_cleanup.2 (fun a => !(a == .runMerge)) rfl (Or.inr ⟨rfl, rfl⟩)⟩

/-! ## Configuration checks (`src/summary/main.py` lines 182-196,
`src/utils.py` lines 32-38)

`process_summary_report` validates only `GCP_PROJECT_ID` and
`GCS_BUCKET_NAME` (via `if not all([project_id, bucket_name])`).
`CLOCKIFY_API_KEY` is read by `get_clockify_headers` and
`CLOCKIFY_WORKSPACE_ID` by `request_summary_report`, both with
`os.environ.get` and no check, and the fetch loop then posts to the API
unconditionally; the date range (26 weeks back from now) is never empty,
so the first iteration always issues a request. -/

structure Env where
  clockify_api_key : Option String
  clockify_workspace_id : Option String
  gcp_project_id : Option String
  gcs_bucket_name : Option String
deriving DecidableEq, Repr

/-- Python truthiness of an optional environment string: `None` and the
empty string are falsy. -/
def pyTruthy (o : Option String) : Bool :=
  match o with
  | none => false
  | some s => !s.isEmpty

/-- Translation of `get_clockify_headers`: the API key is inserted into
the headers unchecked, possibly absent. -/
def get_clockify_headers (env : Env) : List (String × Option String) :=
  [("X-Api-Key", env.clockify_api_key), ("Content-Type", some "application/json")]

/-- The fail-fast configuration check at the top of
`process_summary_report`: only the storage project id and bucket name are
validated. -/
def summary_config_check (env : Env) : Except String Unit :=
  if pyTruthy env.gcp_project_id && pyTruthy env.gcs_bucket_name then .ok ()
  else .error "Missing required environment variables"

/-- Whether the job reaches its first network request: it does exactly when
the configuration check passes, regardless of the API key and workspace
id. -/
def summary_job_makes_network_call (env : Env) : Bool :=
  match summary_config_check env with
  | .ok _ => true
  | .error _ => false

/-- C9 counterexample: with the API key and workspace id both missing (but
project id and bucket name present) the configuration check passes and the
job issues its first network request with a `None` API key header — it does
not fail before any network call as the claim demands. -/
theorem missing_api_key_not_failfast_cex :
    summary_config_check ⟨none, none, some "proj", some "bucket"⟩ = .ok () ∧
    summary_job_makes_network_call ⟨none, none, some "proj", some "bucket"⟩
        = true ∧
    (get_clockify_headers ⟨none, none, some "proj", some "bucket"⟩).getD 0
        ("", none)
      = ("X-Api-Key", none) := by
  exact ⟨rfl, rfl, rfl⟩

/-- C9 (amended): only the storage project id and bucket name are checked
before any network call — the job fails fast exactly when one of those two
is missing or empty, and otherwise proceeds to its first network request
even when the API key or workspace id is absent. -/
theorem config_failfast_scope :
    ∀ env : Env,
      summary_job_makes_network_call env
        = (pyTruthy env.gcp_project_id && pyTruthy env.gcs_bucket_name) ∧
      (summary_job_makes_network_call env = false ↔
        summary_config_check env
          = .error "Missing required environment variables") := by
  intro env
  rcases h1 : pyTruthy env.gcp_project_id with _ | _ <;>
    rcases h2 : pyTruthy env.gcs_bucket_name with _ | _ <;>
      simp [summary_job_makes_network_call, summary_config_check, h1, h2]

/-! ## The users flattener (`src/users/main.py` lines 51-84)

`fetch_clockify_users` pops the `memberships` list off each user dict,
builds a one-row DataFrame from the remaining fields, and flattens only
`memberships[0]` into `membership_<key>` columns (one-level nested dicts
such as `hourlyRate` become `membership_<key>_<subkey>`); memberships after
the first are discarded.  The per-user frames are concatenated and an
`import_timestamp` column is appended. -/

/-- A membership field value: a scalar or a one-level nested dict. -/
inductive MVal where
  | scalar (v : String)
  | nested (kvs : List (String × String))
deriving DecidableEq, Repr

/-- One raw user: its scalar fields (after popping `memberships`) and its
membership list. -/
structure ClockifyUser where
  base : List (String × String)
  memberships : List (List (String × MVal))
deriving DecidableEq, Repr

/-- Flattening of one membership dict (lines 66-73). -/
def membershipCols (m : List (String × MVal)) : List (String × String) :=
  m.flatMap (fun kv =>
    match kv.2 with
    | .scalar v => [("membership_" ++ kv.1, v)]
    | .nested kvs =>
        kvs.map (fun sub => ("membership_" ++ kv.1 ++ "_" ++ sub.1, sub.2)))

/-- One output row per user: base fields, then the first membership
flattened (nothing when the membership list is empty), then the
timestamp column. -/
def flatten_user (ts : String) (u : ClockifyUser) : List (String × String) :=
  (u.base ++
    match u.memberships with
    | [] => []
    | m :: _ => membershipCols m)
  ++ [("import_timestamp", ts)]

/-- The DataFrame built by `fetch_clockify_users` from the accumulated user
list (empty list gives an empty frame). -/
def fetch_clockify_users_rows (ts : String) (all_users : List ClockifyUser) :
    List (List (String × String)) :=
  if all_users.isEmpty then [] else all_users.map (flatten_user ts)

/-- C10: for every non-empty fetched user list the flattener emits exactly
one row per user, and the row depends only on the first membership — a user
with extra memberships flattens exactly as if only the first were
present. -/
theorem users_one_row_first_membership :
    ∀ (ts : String) (all_users : List ClockifyUser), all_users ≠ [] →
      (fetch_clockify_users_rows ts all_users).length = all_users.length ∧
      (∀ (base : List (String × String)) (m : List (String × MVal))
        (ms : List (List (String × MVal))),
        flatten_user ts ⟨base, m :: ms⟩ = flatten_user ts ⟨base, [m]⟩) := by
  intro ts all_users hne
  constructor
  · rw [fetch_clockify_users_rows, if_neg (by simpa using hne), List.length_map]
  · intro base m ms
    rfl

/-- C10 witness: a single user with two memberships (the first carrying a
nested hourly rate) yields one row, and dropping the second membership
leaves the row unchanged. -/
theorem users_one_row_first_membership_witness :
    (fetch_clockify_users_rows "2024-01-01"
      [⟨[("id", "u1"), ("name", "Alice")],
        [[("membershipType", .scalar "WORKSPACE"),
          ("hourlyRate", .nested [("amount", "50"), ("currency", "EUR")])],
         [("membershipType", .scalar "PROJECT")]]⟩]).length = 1 ∧
    flatten_user "2024-01-01"
        ⟨[("id", "u1")],
         [[("membershipType", .scalar "WORKSPACE")],
          [("membershipType", .scalar "PROJECT")]]⟩
      = flatten_user "2024-01-01"
          ⟨[("id", "u1")], [[("membershipType", .scalar "WORKSPACE")]]⟩ :=
  ⟨(users_one_row_first_membership "2024-01-01"
      [⟨[("id", "u1"), ("name", "Alice")],
        [[("membershipType", .scalar "WORKSPACE"),
          ("hourlyRate", .nested [("amount", "50"), ("currency", "EUR")])],
         [("membershipType", .scalar "PROJECT")]]⟩] (by simp)).1,
   (users_one_row_first_membership "2024-01-01"
      [⟨[("id", "u1")],
        [[("membershipType", .scalar "WORKSPACE")],
         [("membershipType", .scalar "PROJECT")]]⟩] (by simp)).2
     [("id", "u1")] [("membershipType", .scalar "WORKSPACE")]
     [[("membershipType", .scalar "PROJECT")]]⟩

end Clockify



